import Mathlib

/-!
Shallow embedding of the `MedicalDiagnosis` Solidity contract
(src/unnamed/part_000) together with the resolved-record branch of the
frontend decryption flow (src/frontend/web/src/App.tsx, `decryptData`).

Modelling choices, all taken from the source:
* `address`, `euint32` handles, `uint32` values, timestamps, and opaque
  byte payloads are all modelled as `Nat`.  The zero address / zero handle
  is the Solidity mapping default ("unset").
* The FHE coprocessor primitives (`FHE.fromExternal`, `FHE.checkSignatures`)
  are an opaque trust boundary, modelled as an explicit environment of
  deterministic functions (`FHEEnv`).  `FHE.fromExternal` returns the
  internal ciphertext handle (0 when the admission proof is invalid, so
  `FHE.isInitialized` is the test against 0); `FHE.checkSignatures` is the
  Bool verdict of the decryption/result attestation check and the embedded
  operation reverts when it is `false`, exactly as the library call does.
* A `require` failure / library revert is an `Except.error`; the EVM rolls
  the whole transaction back, which `step` reflects by returning the
  pre-state unchanged together with the error.
* The FHE access-control side effects `FHE.allowThis` and
  `FHE.makePubliclyDecryptable` live in the coprocessor's ACL; they are
  carried in the state as two Bool-valued maps over handles so that the
  grant is observable.
* The contract writes `cases[caseId].diagnosisResult` and
  `cases[caseId].isDiagnosed` as two consecutive storage writes inside one
  transaction; the embedding performs them as one record update, which is
  observationally identical because no other code runs between them.
* The source spells the existence check as
  `bytes(cases[caseId].patientAddress).length == 0`; its intent (the only
  reading consistent with the rest of the contract) is "the stored
  patientAddress is still the mapping default", embedded as
  `patientAddress = 0`.  On Ethereum `msg.sender` is never the zero
  address; theorems that need this carry `sender ≠ 0` as a hypothesis.
-/

namespace MedicalDiagnosis

/-- The external FHE provider, an opaque trust boundary (spec §6):
`fromExternal (externalCiphertext) (inputProof)` yields the admitted
internal handle, 0 when admission fails; `checkSignatures cts payload proof`
is the attestation verdict over the covered handle list and the encoded
payload. -/
structure FHEEnv where
  fromExternal : Nat → Nat → Nat
  checkSignatures : List Nat → Nat → Nat → Bool

/-- Error kinds, one per revert site of the contract:
`DuplicateIdentifier` = require "Case already exists",
`InvalidEncryptedInput` = require "Invalid encrypted input",
`NotFound` = require "Case does not exist",
`AlreadyResolved` = require "Case already diagnosed",
`ProofRejected` = revert inside `FHE.checkSignatures`. -/
inductive ContractError where
  | DuplicateIdentifier
  | InvalidEncryptedInput
  | NotFound
  | AlreadyResolved
  | ProofRejected
deriving DecidableEq

/-- The `PatientCase` struct of the contract. -/
structure PatientCase where
  patientAddress : Nat
  encryptedSymptoms : Nat
  diagnosisResult : Nat
  isDiagnosed : Bool
  timestamp : Nat
deriving DecidableEq

/-- The two contract events. -/
inductive Event where
  | CaseCreated (caseId : String) (patient : Nat)
  | DiagnosisComplete (caseId : String) (result : Nat)
deriving DecidableEq

/-- Contract storage plus the coprocessor ACL flags:
`cases` is the `mapping(string => PatientCase)` (total, with the
all-zero struct as default), `caseIds` the `string[]` catalog, `events`
the emitted event log, `allowedThis` and `pubDecryptable` the ACL facts
established by `FHE.allowThis` / `FHE.makePubliclyDecryptable`. -/
structure ContractState where
  cases : String → PatientCase
  caseIds : List String
  allowedThis : Nat → Bool
  pubDecryptable : Nat → Bool
  events : List Event

/-- Solidity mapping default value for `PatientCase`. -/
def emptyCase : PatientCase :=
  { patientAddress := 0, encryptedSymptoms := 0, diagnosisResult := 0,
    isDiagnosed := false, timestamp := 0 }

/-- Contract storage right after the constructor ran. -/
def initialState : ContractState :=
  { cases := fun _ => emptyCase, caseIds := [],
    allowedThis := fun _ => false, pubDecryptable := fun _ => false,
    events := [] }

/-- `abi.decode(bytes, (uint32))`: the byte payload is modelled by the
number it encodes, truncated to 32 bits. -/
def abiDecodeUint32 (b : Nat) : Nat := b % 2 ^ 32

/-- `abi.encode(uint32 v)` in the same model. -/
def abiEncodeUint32 (v : Nat) : Nat := v % 2 ^ 32

/-- `createCase(caseId, encryptedSymptoms, inputProof)` called by `sender`
at block timestamp `ts`.  Mirrors the source line by line: the existence
require, the `FHE.isInitialized (FHE.fromExternal …)` require, the struct
write, `FHE.allowThis`, `FHE.makePubliclyDecryptable`, the catalog push and
the `CaseCreated` event.  (`FHE.fromExternal` appears twice, once in the
require and once in the struct write, exactly as in the source; the
environment function is deterministic, so both calls agree.) -/
def createCase (env : FHEEnv) (sender ts : Nat) (s : ContractState)
    (caseId : String) (encryptedSymptoms inputProof : Nat) :
    Except ContractError ContractState :=
  if (s.cases caseId).patientAddress ≠ 0 then
    .error .DuplicateIdentifier
  else if env.fromExternal encryptedSymptoms inputProof = 0 then
    .error .InvalidEncryptedInput
  else
    .ok { cases := fun id => if id = caseId then
            { patientAddress := sender,
              encryptedSymptoms := env.fromExternal encryptedSymptoms inputProof,
              diagnosisResult := 0, isDiagnosed := false, timestamp := ts }
          else s.cases id,
          caseIds := s.caseIds ++ [caseId],
          allowedThis := fun x =>
            if x = env.fromExternal encryptedSymptoms inputProof then true
            else s.allowedThis x,
          pubDecryptable := fun x =>
            if x = env.fromExternal encryptedSymptoms inputProof then true
            else s.pubDecryptable x,
          events := s.events ++ [.CaseCreated caseId sender] }

/-- `diagnoseCase(caseId, abiEncodedResult, diagnosisProof)`: the existence
require, the not-yet-diagnosed require, the one-element `cts` array built
from the stored handle (`FHE.toBytes32` is the identity on handles here),
the `FHE.checkSignatures` revert, the decode and the two result writes,
then the `DiagnosisComplete` event. -/
def diagnoseCase (env : FHEEnv) (s : ContractState) (caseId : String)
    (abiEncodedResult diagnosisProof : Nat) :
    Except ContractError ContractState :=
  if (s.cases caseId).patientAddress = 0 then
    .error .NotFound
  else if (s.cases caseId).isDiagnosed then
    .error .AlreadyResolved
  else if env.checkSignatures [(s.cases caseId).encryptedSymptoms]
            abiEncodedResult diagnosisProof = false then
    .error .ProofRejected
  else
    .ok { cases := fun id => if id = caseId then
            { s.cases caseId with
              diagnosisResult := abiDecodeUint32 abiEncodedResult,
              isDiagnosed := true }
          else s.cases id,
          caseIds := s.caseIds,
          allowedThis := s.allowedThis,
          pubDecryptable := s.pubDecryptable,
          events := s.events ++
            [.DiagnosisComplete caseId (abiDecodeUint32 abiEncodedResult)] }

/-- `getEncryptedSymptoms(caseId)` view. -/
def getEncryptedSymptoms (s : ContractState) (caseId : String) :
    Except ContractError Nat :=
  if (s.cases caseId).patientAddress = 0 then .error .NotFound
  else .ok (s.cases caseId).encryptedSymptoms

/-- `getCaseDetails(caseId)` view, returning
`(patientAddress, diagnosisResult, isDiagnosed, timestamp)`. -/
def getCaseDetails (s : ContractState) (caseId : String) :
    Except ContractError (Nat × Nat × Bool × Nat) :=
  if (s.cases caseId).patientAddress = 0 then .error .NotFound
  else .ok ((s.cases caseId).patientAddress, (s.cases caseId).diagnosisResult,
            (s.cases caseId).isDiagnosed, (s.cases caseId).timestamp)

/-- `getAllCaseIds()` view. -/
def getAllCaseIds (s : ContractState) : List String := s.caseIds

/-- `verifyContractActive()`: `public pure returns (bool) { return true; }`. -/
def verifyContractActive : Bool := true

/-- A state-changing transaction to the contract. -/
inductive Op where
  | create (sender ts : Nat) (caseId : String) (encryptedSymptoms inputProof : Nat)
  | diagnose (caseId : String) (abiEncodedResult diagnosisProof : Nat)

/-- Dispatch one transaction. -/
def runOp (env : FHEEnv) (op : Op) (s : ContractState) :
    Except ContractError ContractState :=
  match op with
  | .create sender ts caseId e p => createCase env sender ts s caseId e p
  | .diagnose caseId e p => diagnoseCase env s caseId e p

/-- One transaction with EVM revert semantics: an error rolls the state
back, so the pre-state is returned untouched together with the error. -/
def step (env : FHEEnv) (op : Op) (s : ContractState) :
    ContractState × Option ContractError :=
  match runOp env op s with
  | .ok s1 => (s1, none)
  | .error e => (s, some e)

/-- Run a sequence of transactions in order (failed ones revert). -/
def applyAll (env : FHEEnv) (ops : List Op) (s : ContractState) : ContractState :=
  match ops with
  | [] => s
  | op :: rest => applyAll env rest (step env op s).1

/-- The identifier appended by one transaction: the caseId of a create
that succeeds, nothing otherwise. -/
def createdIds (env : FHEEnv) (op : Op) (s : ContractState) : List String :=
  match op with
  | .create _ _ caseId _ _ => if (runOp env op s).isOk then [caseId] else []
  | .diagnose _ _ _ => []

/-- The identifiers of the create transactions that succeed along the run,
in execution order. -/
def successfulCreates (env : FHEEnv) (ops : List Op) (s : ContractState) :
    List String :=
  match ops with
  | [] => []
  | op :: rest => createdIds env op s ++ successfulCreates env rest (step env op s).1

/-- On Ethereum `msg.sender` is never the zero address; a transaction
sequence is well formed when every create carries a nonzero sender. -/
def Op.senderOk : Op → Bool
  | .create sender _ _ _ _ => sender ≠ 0
  | .diagnose _ _ _ => true

/-- All transactions of the run come from nonzero senders. -/
abbrev OpsOk (ops : List Op) : Prop := ∀ op ∈ ops, op.senderOk = true

/-- Model of the frontend `decryptData` flow (App.tsx): read the record;
if it is already verified/diagnosed, return the stored cleartext with no
contract write; otherwise run the decryption-verification round trip whose
callback submits `(abiEncodedClearValues, decryptionProof)` to the
contract's commit endpoint.  Modelled from the spec: the commit endpoint
the frontend calls is not among the sources; per the spec it commits the
cleartext "through the same proof-checked path" as result submission,
which here is `diagnoseCase`.  A failed round trip returns `none` and
leaves the state untouched. -/
def decryptData (env : FHEEnv) (s : ContractState) (caseId : String)
    (abiEncodedClearValues decryptionProof : Nat) :
    Option Nat × ContractState :=
  let c := s.cases caseId
  if c.isDiagnosed then
    (some c.diagnosisResult, s)
  else
    match diagnoseCase env s caseId abiEncodedClearValues decryptionProof with
    | .ok s1 => (some (abiDecodeUint32 abiEncodedClearValues), s1)
    | .error _ => (none, s)

/-- A concrete FHE environment for witnesses: every admission yields the
(nonzero) handle `ext + 1`, every attestation check passes. -/
def acceptEnv : FHEEnv :=
  { fromExternal := fun e _ => e + 1, checkSignatures := fun _ _ _ => true }

/-- A concrete FHE environment whose attestation check always fails. -/
def rejectEnv : FHEEnv :=
  { fromExternal := fun e _ => e + 1, checkSignatures := fun _ _ _ => false }

/-- A concrete state holding one already-resolved record `case-A`
(handle 5, result 7, creator 1, timestamp 10). -/
def sampleResolved : ContractState :=
  { cases := fun id => if id = "case-A" then
      { patientAddress := 1, encryptedSymptoms := 5, diagnosisResult := 7,
        isDiagnosed := true, timestamp := 10 }
    else emptyCase,
    caseIds := ["case-A"],
    allowedThis := fun x => x = 5,
    pubDecryptable := fun x => x = 5,
    events := [.CaseCreated "case-A" 1, .DiagnosisComplete "case-A" 7] }

/-- A concrete state holding one still-open record `case-B`
(handle 5, creator 1, timestamp 10). -/
def sampleOpen : ContractState :=
  { cases := fun id => if id = "case-B" then
      { patientAddress := 1, encryptedSymptoms := 5, diagnosisResult := 0,
        isDiagnosed := false, timestamp := 10 }
    else emptyCase,
    caseIds := ["case-B"],
    allowedThis := fun x => x = 5,
    pubDecryptable := fun x => x = 5,
    events := [.CaseCreated "case-B" 1] }

/-- Structural store invariant: a record field is populated exactly when
its identifier is in the catalog, and the catalog has no duplicates. -/
def Inv (s : ContractState) : Prop :=
  (∀ id, (s.cases id).patientAddress ≠ 0 ↔ id ∈ s.caseIds) ∧ s.caseIds.Nodup

theorem createCase_err_of_exists (env : FHEEnv) (sender ts : Nat)
    (s : ContractState) (cid : String) (e p : Nat)
    (hpa : (s.cases cid).patientAddress ≠ 0) :
    createCase env sender ts s cid e p = .error .DuplicateIdentifier := by
  simp [createCase, hpa]

theorem createCase_ok_of (env : FHEEnv) (sender ts : Nat) (s : ContractState)
    (cid : String) (e p : Nat) (hpa : (s.cases cid).patientAddress = 0)
    (hv : env.fromExternal e p ≠ 0) :
    ∃ s1, createCase env sender ts s cid e p = .ok s1 := by
  cases hc : createCase env sender ts s cid e p with
  | ok s1 => exact ⟨s1, rfl⟩
  | error err => simp [createCase, hpa, hv] at hc

theorem createCase_ok_pa0 {env : FHEEnv} {sender ts : Nat} {s : ContractState}
    {cid : String} {e p : Nat} {s1 : ContractState}
    (h : createCase env sender ts s cid e p = .ok s1) :
    (s.cases cid).patientAddress = 0 := by
  by_cases hpa : (s.cases cid).patientAddress = 0
  · exact hpa
  · rw [createCase_err_of_exists env sender ts s cid e p hpa] at h
    exact absurd h (by simp)

theorem createCase_ok_unfold {env : FHEEnv} {sender ts : Nat}
    {s : ContractState} {cid : String} {e p : Nat} {s1 : ContractState}
    (h : createCase env sender ts s cid e p = .ok s1) :
    env.fromExternal e p ≠ 0 ∧
    s1.cases cid = ⟨sender, env.fromExternal e p, 0, false, ts⟩ ∧
    (∀ i, i ≠ cid → s1.cases i = s.cases i) ∧
    s1.caseIds = s.caseIds ++ [cid] ∧
    s1.pubDecryptable (env.fromExternal e p) = true ∧
    (∀ x, s.pubDecryptable x = true → s1.pubDecryptable x = true) := by
  have hpa := createCase_ok_pa0 h
  by_cases hv : env.fromExternal e p = 0
  · simp [createCase, hpa, hv] at h
  · simp [createCase, hpa, hv] at h
    subst h
    refine ⟨hv, by simp, ?_, rfl, by simp, ?_⟩
    · intro i hi
      simp [hi]
    · intro x hx
      simp [hx]

theorem diagnoseCase_err_of_missing (env : FHEEnv) (s : ContractState)
    (cid : String) (e p : Nat) (hpa : (s.cases cid).patientAddress = 0) :
    diagnoseCase env s cid e p = .error .NotFound := by
  simp [diagnoseCase, hpa]

theorem diagnoseCase_err_of_diagnosed (env : FHEEnv) (s : ContractState)
    (cid : String) (e p : Nat) (hpa : (s.cases cid).patientAddress ≠ 0)
    (hd : (s.cases cid).isDiagnosed = true) :
    diagnoseCase env s cid e p = .error .AlreadyResolved := by
  simp [diagnoseCase, hpa, hd]

theorem diagnoseCase_err_of_badsig (env : FHEEnv) (s : ContractState)
    (cid : String) (e p : Nat) (hpa : (s.cases cid).patientAddress ≠ 0)
    (hopen : (s.cases cid).isDiagnosed = false)
    (hsig : env.checkSignatures [(s.cases cid).encryptedSymptoms] e p = false) :
    diagnoseCase env s cid e p = .error .ProofRejected := by
  simp [diagnoseCase, hpa, hopen, hsig]

theorem diagnoseCase_ok_of (env : FHEEnv) (s : ContractState) (cid : String)
    (e p : Nat) (hpa : (s.cases cid).patientAddress ≠ 0)
    (hopen : (s.cases cid).isDiagnosed = false)
    (hsig : env.checkSignatures [(s.cases cid).encryptedSymptoms] e p = true) :
    ∃ s1, diagnoseCase env s cid e p = .ok s1 := by
  cases hc : diagnoseCase env s cid e p with
  | ok s1 => exact ⟨s1, rfl⟩
  | error err => simp [diagnoseCase, hpa, hopen, hsig] at hc

theorem diagnoseCase_ok_unfold {env : FHEEnv} {s : ContractState}
    {cid : String} {e p : Nat} {s1 : ContractState}
    (h : diagnoseCase env s cid e p = .ok s1) :
    (s.cases cid).patientAddress ≠ 0 ∧
    (s.cases cid).isDiagnosed = false ∧
    env.checkSignatures [(s.cases cid).encryptedSymptoms] e p = true ∧
    s1.cases cid = ⟨(s.cases cid).patientAddress,
      (s.cases cid).encryptedSymptoms, abiDecodeUint32 e, true,
      (s.cases cid).timestamp⟩ ∧
    (∀ i, i ≠ cid → s1.cases i = s.cases i) ∧
    s1.caseIds = s.caseIds ∧
    s1.pubDecryptable = s.pubDecryptable := by
  by_cases hpa : (s.cases cid).patientAddress = 0
  · rw [diagnoseCase_err_of_missing env s cid e p hpa] at h
    exact absurd h (by simp)
  · by_cases hd : (s.cases cid).isDiagnosed = true
    · rw [diagnoseCase_err_of_diagnosed env s cid e p hpa hd] at h
      exact absurd h (by simp)
    · have hopen : (s.cases cid).isDiagnosed = false := by
        simpa using hd
      by_cases hsig :
          env.checkSignatures [(s.cases cid).encryptedSymptoms] e p = true
      · simp [diagnoseCase, hpa, hopen, hsig] at h
        subst h
        refine ⟨hpa, hopen, hsig, by simp, ?_, rfl, rfl⟩
        intro i hi
        simp [hi]
      · have hsigf :
            env.checkSignatures [(s.cases cid).encryptedSymptoms] e p = false := by
          simpa using hsig
        rw [diagnoseCase_err_of_badsig env s cid e p hpa hopen hsigf] at h
        exact absurd h (by simp)

theorem step_resolved_stable (env : FHEEnv) (op : Op) (s : ContractState)
    (i : String) (hpa : (s.cases i).patientAddress ≠ 0)
    (hd : (s.cases i).isDiagnosed = true) :
    (step env op s).1.cases i = s.cases i := by
  cases op with
  | create sender ts cid e p =>
    by_cases hic : cid = i
    · subst hic
      simp [step, runOp, createCase_err_of_exists env sender ts s cid e p hpa]
    · cases hc : createCase env sender ts s cid e p with
      | error err => simp [step, runOp, hc]
      | ok s1 =>
        simp only [step, runOp, hc]
        exact (createCase_ok_unfold hc).2.2.1 i (fun hh => hic hh.symm)
  | diagnose cid e p =>
    by_cases hic : cid = i
    · subst hic
      simp [step, runOp, diagnoseCase_err_of_diagnosed env s cid e p hpa hd]
    · cases hc : diagnoseCase env s cid e p with
      | error err => simp [step, runOp, hc]
      | ok s1 =>
        simp only [step, runOp, hc]
        exact (diagnoseCase_ok_unfold hc).2.2.2.2.1 i (fun hh => hic hh.symm)

theorem applyAll_resolved_stable (env : FHEEnv) (ops : List Op) :
    ∀ s i, (s.cases i).patientAddress ≠ 0 → (s.cases i).isDiagnosed = true →
      (applyAll env ops s).cases i = s.cases i := by
  induction ops with
  | nil => intro s i _ _; rfl
  | cons op rest ih =>
    intro s i hpa hd
    have hstep := step_resolved_stable env op s i hpa hd
    have hrest := ih (step env op s).1 i
      (by rw [hstep]; exact hpa) (by rw [hstep]; exact hd)
    simp only [applyAll]
    rw [hrest, hstep]

theorem step_caseIds (env : FHEEnv) (op : Op) (s : ContractState) :
    (step env op s).1.caseIds = s.caseIds ++ createdIds env op s := by
  cases op with
  | create sender ts cid e p =>
    cases hc : createCase env sender ts s cid e p with
    | error err => simp [step, runOp, createdIds, hc, Except.isOk, Except.toBool]
    | ok s1 =>
      simp [step, runOp, createdIds, hc, Except.isOk, Except.toBool]
      exact (createCase_ok_unfold hc).2.2.2.1
  | diagnose cid e p =>
    cases hc : diagnoseCase env s cid e p with
    | error err => simp [step, runOp, createdIds, hc]
    | ok s1 =>
      simp only [step, runOp, createdIds, hc, List.append_nil]
      exact (diagnoseCase_ok_unfold hc).2.2.2.2.2.1

theorem applyAll_caseIds (env : FHEEnv) (ops : List Op) :
    ∀ s, (applyAll env ops s).caseIds = s.caseIds ++ successfulCreates env ops s := by
  induction ops with
  | nil => intro s; simp [applyAll, successfulCreates]
  | cons op rest ih =>
    intro s
    simp only [applyAll, successfulCreates]
    rw [ih (step env op s).1, step_caseIds env op s, List.append_assoc]

theorem inv_initialState : Inv initialState := by
  constructor
  · intro id
    simp [initialState, emptyCase]
  · simp [initialState]

theorem inv_step (env : FHEEnv) (op : Op) (s : ContractState)
    (hok : op.senderOk = true) (hinv : Inv s) : Inv (step env op s).1 := by
  obtain ⟨hiff, hnd⟩ := hinv
  cases op with
  | create sender ts cid e p =>
    have hsender : sender ≠ 0 := by simpa [Op.senderOk] using hok
    cases hc : createCase env sender ts s cid e p with
    | error err =>
      simp only [step, runOp, hc]
      exact ⟨hiff, hnd⟩
    | ok s1 =>
      obtain ⟨hv, hself, hother, hcat, hpubn, hpubm⟩ := createCase_ok_unfold hc
      have hfresh : cid ∉ s.caseIds := by
        intro hmem
        exact absurd ((hiff cid).mpr hmem)
          (by simp [createCase_ok_pa0 hc])
      constructor
      · intro id
        simp only [step, runOp, hc]
        by_cases hid : id = cid
        · subst hid
          rw [hself, hcat]
          simp [hsender]
        · rw [hother id hid, hcat]
          simp only [List.mem_append, List.mem_singleton, hid, or_false]
          exact hiff id
      · simp only [step, runOp, hc]
        rw [hcat]
        refine List.Nodup.append hnd (List.nodup_singleton cid) ?_
        intro a ha hb
        rw [List.mem_singleton] at hb
        subst hb
        exact hfresh ha
  | diagnose cid e p =>
    cases hc : diagnoseCase env s cid e p with
    | error err =>
      simp only [step, runOp, hc]
      exact ⟨hiff, hnd⟩
    | ok s1 =>
      obtain ⟨hpa, hopen, hsig, hself, hother, hcat, hpub⟩ :=
        diagnoseCase_ok_unfold hc
      constructor
      · intro id
        simp only [step, runOp, hc]
        by_cases hid : id = cid
        · subst hid
          rw [hself, hcat]
          simpa using hiff id
        · rw [hother id hid, hcat]
          exact hiff id
      · simp only [step, runOp, hc]
        rw [hcat]
        exact hnd

theorem inv_applyAll (env : FHEEnv) (ops : List Op) :
    ∀ s, OpsOk ops → Inv s → Inv (applyAll env ops s) := by
  induction ops with
  | nil => intro s _ h; exact h
  | cons op rest ih =>
    intro s hok hinv
    simp only [applyAll]
    refine ih _ (fun o ho => hok o (List.mem_cons_of_mem op ho))
      (inv_step env op s (hok op (List.mem_cons_self op rest)) hinv)

/-- C1: resolution succeeds at most once per record.  A second
`diagnoseCase` on an already-diagnosed record reverts with
`AlreadyResolved` and leaves the whole state untouched; after any further
transaction sequence the record stays diagnosed with the same stored
result; and any successful `diagnoseCase` starts from an undiagnosed
record and writes `diagnosisResult` and `isDiagnosed` together in that
single transaction. -/
theorem resolve_at_most_once (env : FHEEnv) (s : ContractState) (i : String)
    (enc proof : Nat) (ops : List Op) (s2 : ContractState) (i2 : String)
    (e2 p2 : Nat) :
    ((s.cases i).patientAddress ≠ 0 → (s.cases i).isDiagnosed = true →
      step env (.diagnose i enc proof) s = (s, some .AlreadyResolved) ∧
      ((applyAll env ops s).cases i).isDiagnosed = true ∧
      ((applyAll env ops s).cases i).diagnosisResult =
        (s.cases i).diagnosisResult) ∧
    ((diagnoseCase env s2 i2 e2 p2).isOk = true →
      ∃ t2, diagnoseCase env s2 i2 e2 p2 = .ok t2 ∧
        (s2.cases i2).isDiagnosed = false ∧
        (t2.cases i2).isDiagnosed = true ∧
        (t2.cases i2).diagnosisResult = abiDecodeUint32 e2) := by
  constructor
  · intro hpa hd
    refine ⟨?_, ?_, ?_⟩
    · simp [step, runOp, diagnoseCase_err_of_diagnosed env s i enc proof hpa hd]
    · rw [applyAll_resolved_stable env ops s i hpa hd]
      exact hd
    · rw [applyAll_resolved_stable env ops s i hpa hd]
  · intro hok
    cases hc : diagnoseCase env s2 i2 e2 p2 with
    | error err =>
      rw [hc] at hok
      simp [Except.isOk, Except.toBool] at hok
    | ok t2 =>
      obtain ⟨hpa, hopen, hsig, hself, hother, hcat, hpub⟩ :=
        diagnoseCase_ok_unfold hc
      exact ⟨t2, rfl, hopen, by rw [hself], by rw [hself]⟩

theorem resolve_at_most_once_witness :
    (step acceptEnv (.diagnose "case-A" 3 0) sampleResolved =
        (sampleResolved, some .AlreadyResolved) ∧
      ((applyAll acceptEnv [] sampleResolved).cases "case-A").isDiagnosed = true ∧
      ((applyAll acceptEnv [] sampleResolved).cases "case-A").diagnosisResult =
        (sampleResolved.cases "case-A").diagnosisResult) ∧
    (∃ t2, diagnoseCase acceptEnv sampleOpen "case-B" 7 0 = .ok t2 ∧
      (sampleOpen.cases "case-B").isDiagnosed = false ∧
      (t2.cases "case-B").isDiagnosed = true ∧
      (t2.cases "case-B").diagnosisResult = abiDecodeUint32 7) :=
  ⟨(resolve_at_most_once acceptEnv sampleResolved "case-A" 3 0 []
      sampleOpen "case-B" 7 0).1 (by decide) (by decide),
   (resolve_at_most_once acceptEnv sampleResolved "case-A" 3 0 []
      sampleOpen "case-B" 7 0).2 (by decide)⟩

/-- C2: identifier uniqueness.  When a caseId is still free and both
admissions are valid, two `createCase` calls on it give exactly one
success and one `DuplicateIdentifier`, in either call order; `createCase`
always fails with `DuplicateIdentifier` on an existing record; and the
catalog of any reachable store has no duplicate identifiers, so at most
one record per identifier ever exists. -/
theorem create_unique_identifier (env : FHEEnv) (sender1 sender2 ts1 ts2 : Nat)
    (i : String) (e1 p1 e2 p2 : Nat) (s t : ContractState) (ops : List Op) :
    (sender1 ≠ 0 → (s.cases i).patientAddress = 0 →
      env.fromExternal e1 p1 ≠ 0 → env.fromExternal e2 p2 ≠ 0 →
      ∃ s1, createCase env sender1 ts1 s i e1 p1 = .ok s1 ∧
        createCase env sender2 ts2 s1 i e2 p2 = .error .DuplicateIdentifier) ∧
    (sender2 ≠ 0 → (s.cases i).patientAddress = 0 →
      env.fromExternal e1 p1 ≠ 0 → env.fromExternal e2 p2 ≠ 0 →
      ∃ s1, createCase env sender2 ts2 s i e2 p2 = .ok s1 ∧
        createCase env sender1 ts1 s1 i e1 p1 = .error .DuplicateIdentifier) ∧
    ((t.cases i).patientAddress ≠ 0 →
      createCase env sender1 ts1 t i e1 p1 = .error .DuplicateIdentifier) ∧
    (OpsOk ops → (applyAll env ops initialState).caseIds.Nodup) := by
  refine ⟨?_, ?_, ?_, ?_⟩
  · intro hs hpa hv1 hv2
    obtain ⟨s1, hc1⟩ := createCase_ok_of env sender1 ts1 s i e1 p1 hpa hv1
    refine ⟨s1, hc1, ?_⟩
    apply createCase_err_of_exists
    rw [(createCase_ok_unfold hc1).2.1]
    simpa using hs
  · intro hs hpa hv1 hv2
    obtain ⟨s1, hc1⟩ := createCase_ok_of env sender2 ts2 s i e2 p2 hpa hv2
    refine ⟨s1, hc1, ?_⟩
    apply createCase_err_of_exists
    rw [(createCase_ok_unfold hc1).2.1]
    simpa using hs
  · intro hpa
    exact createCase_err_of_exists env sender1 ts1 t i e1 p1 hpa
  · intro hok
    exact (inv_applyAll env ops initialState hok inv_initialState).2

theorem create_unique_identifier_witness :
    (∃ s1, createCase acceptEnv 1 0 initialState "case-A" 3 0 = .ok s1 ∧
      createCase acceptEnv 2 0 s1 "case-A" 4 0 = .error .DuplicateIdentifier) ∧
    (∃ s1, createCase acceptEnv 2 0 initialState "case-A" 4 0 = .ok s1 ∧
      createCase acceptEnv 1 0 s1 "case-A" 3 0 = .error .DuplicateIdentifier) ∧
    createCase acceptEnv 1 0 sampleResolved "case-A" 3 0 =
      .error .DuplicateIdentifier ∧
    (applyAll acceptEnv [.create 1 0 "x" 3 0, .diagnose "x" 5 0]
      initialState).caseIds.Nodup := by
  obtain ⟨h1, h2, h3, h4⟩ := create_unique_identifier acceptEnv 1 2 0 0
    "case-A" 3 0 4 0 initialState sampleResolved
    [.create 1 0 "x" 3 0, .diagnose "x" 5 0]
  exact ⟨h1 (by decide) (by decide) (by decide) (by decide),
         h2 (by decide) (by decide) (by decide) (by decide),
         h3 (by decide), h4 (by decide)⟩

/-- C3: round trip.  Starting from a free identifier, a successful
`createCase` followed by `diagnoseCase` with the ABI encoding of 42 under
an attestation accepted for the stored handle makes `getCaseDetails`
report the creator, result 42, `isDiagnosed = true` and the creation
timestamp. -/
theorem roundtrip_result_42 (env : FHEEnv) (sender ts : Nat)
    (s : ContractState) (i : String) (ext p dp : Nat) :
    sender ≠ 0 → (s.cases i).patientAddress = 0 →
    env.fromExternal ext p ≠ 0 →
    env.checkSignatures [env.fromExternal ext p] (abiEncodeUint32 42) dp = true →
    ∃ s1 s2, createCase env sender ts s i ext p = .ok s1 ∧
      diagnoseCase env s1 i (abiEncodeUint32 42) dp = .ok s2 ∧
      getCaseDetails s2 i = .ok (sender, 42, true, ts) := by
  intro hs hpa hv hsig
  obtain ⟨s1, hc1⟩ := createCase_ok_of env sender ts s i ext p hpa hv
  obtain ⟨hv2, hself1, hother1, hcat1, hpubn1, hpubm1⟩ := createCase_ok_unfold hc1
  have hpa1 : (s1.cases i).patientAddress ≠ 0 := by
    rw [hself1]
    simpa using hs
  have hopen1 : (s1.cases i).isDiagnosed = false := by rw [hself1]
  have hsym1 : (s1.cases i).encryptedSymptoms = env.fromExternal ext p := by
    rw [hself1]
  obtain ⟨s2, hc2⟩ := diagnoseCase_ok_of env s1 i (abiEncodeUint32 42) dp hpa1
    hopen1 (by rw [hsym1]; exact hsig)
  have hself2 := (diagnoseCase_ok_unfold hc2).2.2.2.1
  have h42 : abiDecodeUint32 (abiEncodeUint32 42) = 42 := by
    norm_num [abiDecodeUint32, abiEncodeUint32]
  have hrec : s2.cases i = ⟨sender, env.fromExternal ext p, 42, true, ts⟩ := by
    rw [hself2, hself1, h42]
  refine ⟨s1, s2, hc1, hc2, ?_⟩
  simp [getCaseDetails, hrec, hs]

theorem roundtrip_result_42_witness :
    ∃ s1 s2, createCase acceptEnv 1 10 initialState "case-A" 4 0 = .ok s1 ∧
      diagnoseCase acceptEnv s1 "case-A" (abiEncodeUint32 42) 0 = .ok s2 ∧
      getCaseDetails s2 "case-A" = .ok (1, 42, true, 10) :=
  roundtrip_result_42 acceptEnv 1 10 initialState "case-A" 4 0 0
    (by decide) (by decide) (by decide) (by decide)

/-- C4: a rejected attestation is side-effect free.  On an existing, open
record, a `diagnoseCase` whose `checkSignatures` verdict is negative
reverts with `ProofRejected` and the post-state is exactly the pre-state;
in particular the record is still open. -/
theorem proof_rejected_side_effect_free (env : FHEEnv) (s : ContractState)
    (i : String) (enc proof : Nat) :
    (s.cases i).patientAddress ≠ 0 → (s.cases i).isDiagnosed = false →
    env.checkSignatures [(s.cases i).encryptedSymptoms] enc proof = false →
    step env (.diagnose i enc proof) s = (s, some .ProofRejected) ∧
    ((step env (.diagnose i enc proof) s).1.cases i).isDiagnosed = false := by
  intro hpa hopen hsig
  have herr := diagnoseCase_err_of_badsig env s i enc proof hpa hopen hsig
  constructor
  · simp [step, runOp, herr]
  · simp [step, runOp, herr, hopen]

theorem proof_rejected_side_effect_free_witness :
    step rejectEnv (.diagnose "case-B" 42 0) sampleOpen =
      (sampleOpen, some .ProofRejected) ∧
    ((step rejectEnv (.diagnose "case-B" 42 0) sampleOpen).1.cases
      "case-B").isDiagnosed = false :=
  proof_rejected_side_effect_free rejectEnv sampleOpen "case-B" 42 0
    (by decide) (by decide) (by decide)

/-- C5: the identifier catalog is append-only.  After any transaction
sequence the catalog is the old catalog followed by the identifiers of
the creates that succeeded, in execution order (diagnoses never touch
it); hence its length equals the number of successful creates so far
plus the previous length, and `getAllCaseIds` reports exactly that. -/
theorem catalog_append_only (env : FHEEnv) (ops : List Op) (s : ContractState) :
    (applyAll env ops s).caseIds = s.caseIds ++ successfulCreates env ops s ∧
    (applyAll env ops s).caseIds.length =
      s.caseIds.length + (successfulCreates env ops s).length ∧
    getAllCaseIds (applyAll env ops s) =
      getAllCaseIds s ++ successfulCreates env ops s := by
  have h := applyAll_caseIds env ops s
  refine ⟨h, ?_, ?_⟩
  · rw [h, List.length_append]
  · simpa [getAllCaseIds] using h

/-- C6: reads on missing and fresh records.  In any reachable store, an
identifier absent from the catalog makes both `getCaseDetails` and
`getEncryptedSymptoms` fail with `NotFound`; and immediately after a
successful `createCase`, `getCaseDetails` succeeds and shows result 0
(unset) and `isDiagnosed = false`. -/
theorem missing_and_fresh_record_views (env : FHEEnv) (ops : List Op)
    (i : String) (sender ts : Nat) (s : ContractState) (i2 : String)
    (ext p : Nat) :
    (OpsOk ops → i ∉ (applyAll env ops initialState).caseIds →
      getCaseDetails (applyAll env ops initialState) i = .error .NotFound ∧
      getEncryptedSymptoms (applyAll env ops initialState) i =
        .error .NotFound) ∧
    ((s.cases i2).patientAddress = 0 → sender ≠ 0 →
      env.fromExternal ext p ≠ 0 →
      ∃ s1, createCase env sender ts s i2 ext p = .ok s1 ∧
        getCaseDetails s1 i2 = .ok (sender, 0, false, ts)) := by
  constructor
  · intro hok hmem
    have hinv := inv_applyAll env ops initialState hok inv_initialState
    have hpa0 : ((applyAll env ops initialState).cases i).patientAddress = 0 := by
      by_contra hne
      exact hmem ((hinv.1 i).mp hne)
    exact ⟨by simp [getCaseDetails, hpa0], by simp [getEncryptedSymptoms, hpa0]⟩
  · intro hpa hs hv
    obtain ⟨s1, hc⟩ := createCase_ok_of env sender ts s i2 ext p hpa hv
    refine ⟨s1, hc, ?_⟩
    simp [getCaseDetails, (createCase_ok_unfold hc).2.1, hs]

theorem missing_and_fresh_record_views_witness :
    (getCaseDetails (applyAll acceptEnv [.create 1 0 "x" 3 0] initialState)
        "nope" = .error .NotFound ∧
      getEncryptedSymptoms (applyAll acceptEnv [.create 1 0 "x" 3 0]
        initialState) "nope" = .error .NotFound) ∧
    (∃ s1, createCase acceptEnv 1 10 initialState "case-A" 4 0 = .ok s1 ∧
      getCaseDetails s1 "case-A" = .ok (1, 0, false, 10)) :=
  ⟨(missing_and_fresh_record_views acceptEnv [.create 1 0 "x" 3 0] "nope"
      1 10 initialState "case-A" 4 0).1 (by decide) (by decide),
   (missing_and_fresh_record_views acceptEnv [.create 1 0 "x" 3 0] "nope"
      1 10 initialState "case-A" 4 0).2 (by decide) (by decide) (by decide)⟩

/-- C7: public decryptability is granted at admission and never revoked.
A successful `createCase` marks the stored ciphertext handle publicly
decryptable in that same transaction, and no transaction ever turns a
publicly-decryptable handle back off. -/
theorem admission_grants_public_decryptability (env : FHEEnv)
    (sender ts : Nat) (s : ContractState) (i : String) (ext p : Nat)
    (op : Op) (t : ContractState) (h : Nat) :
    ((s.cases i).patientAddress = 0 → env.fromExternal ext p ≠ 0 →
      ∃ s1, createCase env sender ts s i ext p = .ok s1 ∧
        s1.pubDecryptable ((s1.cases i).encryptedSymptoms) = true) ∧
    (t.pubDecryptable h = true → (step env op t).1.pubDecryptable h = true) := by
  constructor
  · intro hpa hv
    obtain ⟨s1, hc⟩ := createCase_ok_of env sender ts s i ext p hpa hv
    obtain ⟨hv2, hself, hother, hcat, hpubn, hpubm⟩ := createCase_ok_unfold hc
    refine ⟨s1, hc, ?_⟩
    rw [hself]
    exact hpubn
  · intro hpub
    cases op with
    | create sender2 ts2 cid e2 p2 =>
      cases hc : createCase env sender2 ts2 t cid e2 p2 with
      | error err => simpa [step, runOp, hc] using hpub
      | ok t1 =>
        simp only [step, runOp, hc]
        exact (createCase_ok_unfold hc).2.2.2.2.2 h hpub
    | diagnose cid e2 p2 =>
      cases hc : diagnoseCase env t cid e2 p2 with
      | error err => simpa [step, runOp, hc] using hpub
      | ok t1 =>
        simp only [step, runOp, hc]
        rw [(diagnoseCase_ok_unfold hc).2.2.2.2.2.2]
        exact hpub

theorem admission_grants_public_decryptability_witness :
    (∃ s1, createCase acceptEnv 1 10 initialState "case-A" 4 0 = .ok s1 ∧
      s1.pubDecryptable ((s1.cases "case-A").encryptedSymptoms) = true) ∧
    (step acceptEnv (.diagnose "case-B" 9 0) sampleOpen).1.pubDecryptable 5 =
      true :=
  ⟨(admission_grants_public_decryptability acceptEnv 1 10 initialState
      "case-A" 4 0 (.diagnose "case-B" 9 0) sampleOpen 5).1
        (by decide) (by decide),
   (admission_grants_public_decryptability acceptEnv 1 10 initialState
      "case-A" 4 0 (.diagnose "case-B" 9 0) sampleOpen 5).2 (by decide)⟩

/-- C8: a verified decryption commit resolves the record, terminally.
On an open record, a `diagnoseCase` whose attestation over the record's
ciphertext handle verifies commits the decoded cleartext and sets
`isDiagnosed = true` — the same terminal state as explicit result
submission, which is the very same code path — and no transaction ever
takes a diagnosed record back to open. -/
theorem verified_decryption_commit_terminal (env : FHEEnv)
    (s : ContractState) (i : String) (enc proof : Nat) (op : Op)
    (t : ContractState) (i2 : String) :
    ((s.cases i).patientAddress ≠ 0 → (s.cases i).isDiagnosed = false →
      env.checkSignatures [(s.cases i).encryptedSymptoms] enc proof = true →
      ∃ s1, diagnoseCase env s i enc proof = .ok s1 ∧
        (s1.cases i).isDiagnosed = true ∧
        (s1.cases i).diagnosisResult = abiDecodeUint32 enc) ∧
    ((t.cases i2).patientAddress ≠ 0 → (t.cases i2).isDiagnosed = true →
      ((step env op t).1.cases i2).isDiagnosed = true) := by
  constructor
  · intro hpa hopen hsig
    obtain ⟨s1, hc⟩ := diagnoseCase_ok_of env s i enc proof hpa hopen hsig
    have hself := (diagnoseCase_ok_unfold hc).2.2.2.1
    exact ⟨s1, hc, by rw [hself], by rw [hself]⟩
  · intro hpa hd
    rw [step_resolved_stable env op t i2 hpa hd]
    exact hd

theorem verified_decryption_commit_terminal_witness :
    (∃ s1, diagnoseCase acceptEnv sampleOpen "case-B" 9 0 = .ok s1 ∧
      (s1.cases "case-B").isDiagnosed = true ∧
      (s1.cases "case-B").diagnosisResult = abiDecodeUint32 9) ∧
    ((step acceptEnv (.create 2 0 "case-A" 3 0) sampleResolved).1.cases
      "case-A").isDiagnosed = true :=
  ⟨(verified_decryption_commit_terminal acceptEnv sampleOpen "case-B" 9 0
      (.create 2 0 "case-A" 3 0) sampleResolved "case-A").1
        (by decide) (by decide) (by decide),
   (verified_decryption_commit_terminal acceptEnv sampleOpen "case-B" 9 0
      (.create 2 0 "case-A" 3 0) sampleResolved "case-A").2
        (by decide) (by decide)⟩

/-- C9: decrypting an already-resolved record is benign and idempotent.
The frontend `decryptData` flow, on a record whose `isDiagnosed` flag is
set, returns the already-stored cleartext result as a success and
performs no state change at all. -/
theorem decrypt_already_resolved_idempotent (env : FHEEnv)
    (s : ContractState) (i : String) (v p : Nat)
    (hres : (s.cases i).isDiagnosed = true) :
    decryptData env s i v p = (some ((s.cases i).diagnosisResult), s) := by
  simp [decryptData, hres]

theorem decrypt_already_resolved_idempotent_witness :
    decryptData acceptEnv sampleResolved "case-A" 3 0 =
      (some ((sampleResolved.cases "case-A").diagnosisResult),
        sampleResolved) :=
  decrypt_already_resolved_idempotent acceptEnv sampleResolved "case-A" 3 0
    (by decide)

/-- C10: `verifyContractActive` is the constant `true`: it takes no input,
reads no store state, mutates nothing, and every liveness probe succeeds. -/
theorem verifyContractActive_always_true : verifyContractActive = true := rfl

end MedicalDiagnosis
